import Mathlib

set_option maxRecDepth 4000

/-
  Verification of the Centurion peripheral emulation (hawk.c, mux.c, mux.h).

  Shallow embedding: the static controller state of each C translation unit
  becomes a Lean structure, and each C function becomes a pure Lean function
  on that structure.  External collaborators (file descriptors, lseek/read
  results, the monotonic clock, the DMA engine, the CPU interrupt lines) are
  modelled as explicit oracle parameters or recorded fields, so that every
  branch of the C code is represented.  Machine integers are Nat (uint8/uint16
  values are kept below 256/65536 by explicit masking at the points where the
  C code truncates) and C int is Int where negative values occur (irq_cause).
  Out-of-bounds array accesses, which are undefined behavior in C, are
  modelled by Option: `none` means the access left the defined fragment.
-/

/-! ## Hawk disk controller (hawk.c) -/

/-- Number of hawk units, `NUM_HAWK_UNITS` in hawk.c. -/
def NUM_HAWK_UNITS : Nat := 8

/-- The static state of hawk.c: the eight `static uint8_t` globals, the
validity of each entry of `hawk_fd` (whether `open` succeeded, i.e. the fd
is not -1), the current backing-store byte position (the result of the last
successful `lseek`), and the last value passed to the external `hawk_set_dma`. -/
structure HawkState where
  unit : Nat
  sech : Nat
  secl : Nat
  busy : Bool
  on_track : Bool
  data_error : Bool
  seek_error : Bool
  ready : Bool
  fd_valid : Fin 8 → Bool
  pos : Nat
  dma : Nat

/-- `hawk_get_fd`: the selected unit has a usable fd iff it is in range and
its `open` succeeded. -/
def hawk_get_fd_ok (s : HawkState) : Bool :=
  if h : s.unit < NUM_HAWK_UNITS then s.fd_valid ⟨s.unit, h⟩ else false

/-- C integer value of a flag byte that is always 0 or 1. -/
def bitVal (b : Bool) : Nat := if b then 1 else 0

/-- `hawk_get_status` from hawk.c, the shifted-or chain verbatim. -/
def hawk_get_status (s : HawkState) : Nat :=
  (0 <<< 0)
  ||| (0 <<< 1)
  ||| (0 <<< 2)
  ||| (0 <<< 3)
  ||| (bitVal s.ready <<< 4)
  ||| (bitVal s.on_track <<< 5)
  ||| (0 <<< 6)
  ||| (0 <<< 7)
  ||| (bitVal s.busy <<< 8)
  ||| (0 <<< 9)
  ||| (bitVal s.data_error <<< 10)
  ||| (bitVal s.data_error <<< 11)
  ||| (bitVal s.data_error <<< 12)
  ||| (bitVal s.data_error <<< 13)
  ||| (bitVal s.seek_error <<< 14)
  ||| (bitVal s.data_error <<< 15)

/-- `sec = hawk_secl & 0x0F` (hawk_position). -/
def hawk_decode_sec (secl : Nat) : Nat := secl &&& 0x0F

/-- `head = !!(hawk_secl & 0x10)` (hawk_position). -/
def hawk_decode_head (secl : Nat) : Nat := if secl &&& 0x10 = 0 then 0 else 1

/-- `cyl = (hawk_sech << 3) | (hawk_secl >> 5)` (hawk_position). -/
def hawk_decode_cyl (sech secl : Nat) : Nat := (sech <<< 3) ||| (secl >>> 5)

/-- The byte offset computed by `hawk_position`:
`offset = ((cyl * 2 + head) * 16 + sec) * 400`. -/
def hawk_offset (sech secl : Nat) : Nat :=
  ((hawk_decode_cyl sech secl * 2 + hawk_decode_head secl) * 16
    + hawk_decode_sec secl) * 400

/-- The packing of a (cylinder, head, sector) address into the two raw
registers, following the register layout documented in hawk.c (sech holds
cylinder bits 8..3; secl holds cylinder bits 2..0, then the head bit, then
the four sector bits). -/
def hawkEncode (cyl head sec : Nat) : Nat × Nat :=
  (cyl / 8, (cyl % 8) * 32 + head * 16 + sec)

/-- `hawk_position` from hawk.c.  `lseek_ok` is the oracle for the result of
the external `lseek` call. -/
def hawk_position (lseek_ok : Bool) (s : HawkState) : HawkState :=
  let offset := hawk_offset s.sech s.secl
  let s1 := { s with on_track := false }
  if hawk_get_fd_ok s = true then
    if lseek_ok = true then
      { s1 with on_track := true, pos := offset }
    else
      { s1 with seek_error := true }
  else
    { s1 with seek_error := true }

/-- The unconditional error-flag clearing at the top of `hawk_cmd`
(hawk.c lines 206-207), before the command switch runs. -/
def hawk_cmd_clear (s : HawkState) : HawkState :=
  { s with data_error := false, seek_error := false }

/-- The command switch of `hawk_cmd` (hawk.c lines 209-234). -/
def hawk_cmd_exec (cmd : Nat) (lseek_ok : Bool) (s : HawkState) : HawkState :=
  match cmd with
  | 0 => { s with busy := true, dma := 1 }
  | 1 => { s with busy := true, dma := 2 }
  | 2 => hawk_position lseek_ok { s with busy := false }
  | 3 => hawk_position lseek_ok s
  | _ => { s with busy := false }

/-- `hawk_cmd`: clear both error flags, then dispatch on the command code. -/
def hawk_cmd (cmd : Nat) (lseek_ok : Bool) (s : HawkState) : HawkState :=
  hawk_cmd_exec cmd lseek_ok (hawk_cmd_clear s)

/-- `hawk_dma_done` from hawk.c. -/
def hawk_dma_done (s : HawkState) : HawkState :=
  { s with dma := 0, busy := false, data_error := !s.on_track }

/-- Result of the external one-byte `read` call in `hawk_read_next`. -/
inductive HawkIoRes where
  | ok (c : Nat)
  | fail

/-- `hawk_read_next` from hawk.c.  On the failure paths the C code sets
`hawk_data_error` and returns the *uninitialized* local `c`; the returned
`none` stands for that indeterminate byte. -/
def hawk_read_next (rd : HawkIoRes) (s : HawkState) : Option Nat × HawkState :=
  if hawk_get_fd_ok s = true then
    match rd with
    | .ok c => (some (c % 256), { s with pos := s.pos + 1 })
    | .fail => (none, { s with data_error := true })
  else
    (none, { s with data_error := true })

/-- `hawk_write` from hawk.c (register decode for writes). -/
def hawk_write (addr val : Nat) (lseek_ok : Bool) (s : HawkState) : HawkState :=
  if addr = 0xF140 then
    let s1 := { s with unit := val % 256 }
    { s1 with ready := hawk_get_fd_ok s1 }
  else if addr = 0xF141 then { s with sech := val % 256 }
  else if addr = 0xF142 then { s with secl := val % 256 }
  else if addr = 0xF144 ∨ addr = 0xF145 then { s with data_error := false }
  else if addr = 0xF148 then hawk_cmd (val % 256) lseek_ok s
  else s

/-- `hawk_read` from hawk.c (register decode for reads; reads do not mutate
the controller state). -/
def hawk_read (addr : Nat) (s : HawkState) : Nat :=
  if addr = 0xF144 then hawk_get_status s >>> 8
  else if addr = 0xF145 then hawk_get_status s &&& 0xff
  else if addr = 0xF148 then bitVal s.busy
  else 0xFF

/-- Lexicographic order on (cylinder, head, sector) addresses. -/
def hawkLexLt (c h s c' h' s' : Nat) : Prop :=
  c < c' ∨ (c = c' ∧ (h < h' ∨ (h = h' ∧ s < s')))

lemma hawk_and15 : ∀ x, x < 256 → x &&& 0x0F = x % 16 := by decide

lemma hawk_and16 : ∀ x, x < 256 → hawk_decode_head x = x / 16 % 2 := by decide

lemma hawk_shr5 : ∀ x, x < 256 → x >>> 5 = x / 32 := by decide

lemma hawk_shl3_or : ∀ q, q < 51 → ∀ r, r < 8 → (q <<< 3) ||| r = q * 8 + r := by
  decide

lemma hawk_offset_encode (c h s : Nat) (hc : c ≤ 405) (hh : h ≤ 1)
    (hs : s ≤ 15) :
    hawk_offset (hawkEncode c h s).1 (hawkEncode c h s).2
      = ((c * 2 + h) * 16 + s) * 400 := by
  have hsecl : (hawkEncode c h s).2 = (c % 8) * 32 + h * 16 + s := rfl
  have hsech : (hawkEncode c h s).1 = c / 8 := rfl
  have hlt : (c % 8) * 32 + h * 16 + s < 256 := by
    have := Nat.mod_lt c (y := 8) (by omega)
    omega
  unfold hawk_offset hawk_decode_cyl hawk_decode_sec
  rw [hsecl, hsech]
  rw [hawk_and15 _ hlt, hawk_and16 _ hlt, hawk_shr5 _ hlt]
  have h8 : (c % 8) * 32 + h * 16 + s < 256 := hlt
  have hq : c / 8 < 51 := by omega
  have hr : ((c % 8) * 32 + h * 16 + s) / 32 = c % 8 := by omega
  rw [hr, hawk_shl3_or _ hq _ (by omega)]
  have hdiv : c / 8 * 8 + c % 8 = c := by omega
  have hmod16 : ((c % 8) * 32 + h * 16 + s) % 16 = s := by omega
  have hhead : ((c % 8) * 32 + h * 16 + s) / 16 % 2 = h := by omega
  rw [hdiv, hmod16, hhead]

/-- Claim C1: for every valid disk address (cylinder 0-405, head 0-1,
sector 0-15), the offset decoded by `hawk_position` from the two raw sector
registers is `((cyl * 2 + head) * 16 + sector) * 400`, and this mapping is
strictly monotone for the lexicographic order on (cylinder, head, sector)
and injective on the valid range. -/
theorem hawk_geometry_translation (c h s : Nat) (hc : c ≤ 405) (hh : h ≤ 1)
    (hs : s ≤ 15) :
    hawk_offset (hawkEncode c h s).1 (hawkEncode c h s).2
      = ((c * 2 + h) * 16 + s) * 400
    ∧ (∀ c' h' s', c' ≤ 405 → h' ≤ 1 → s' ≤ 15 →
        (hawkLexLt c h s c' h' s' →
          hawk_offset (hawkEncode c h s).1 (hawkEncode c h s).2
            < hawk_offset (hawkEncode c' h' s').1 (hawkEncode c' h' s').2)
        ∧ (hawk_offset (hawkEncode c h s).1 (hawkEncode c h s).2
              = hawk_offset (hawkEncode c' h' s').1 (hawkEncode c' h' s').2 →
            c = c' ∧ h = h' ∧ s = s')) := by
  refine ⟨hawk_offset_encode c h s hc hh hs, ?_⟩
  intro c' h' s' hc' hh' hs'
  rw [hawk_offset_encode c h s hc hh hs, hawk_offset_encode c' h' s' hc' hh' hs']
  unfold hawkLexLt
  constructor
  · intro hlex
    rcases hlex with h1 | ⟨rfl, h2 | ⟨rfl, h3⟩⟩ <;> omega
  · intro heq
    omega

/-- Witness for C1: the theorem applied at cylinder 405, head 1, sector 15. -/
theorem hawk_geometry_translation_wit :
    hawk_offset (hawkEncode 405 1 15).1 (hawkEncode 405 1 15).2
      = ((405 * 2 + 1) * 16 + 15) * 400 :=
  (hawk_geometry_translation 405 1 15 (by decide) (by decide) (by decide)).1

set_option maxHeartbeats 3200000 in
/-- Claim C2: for every controller state the 16-bit status word assembled by
`hawk_get_status` has bit 4 = ready, bit 5 = on_track, bit 8 = busy,
bits 10, 11, 12, 13 and 15 all = data_error, bit 14 = seek_error, every other
bit 0, and the register reads at 0xF144 / 0xF145 return exactly its high and
low bytes. -/
theorem hawk_status_word_layout (s : HawkState) :
    (hawk_get_status s).testBit 4 = s.ready
    ∧ (hawk_get_status s).testBit 5 = s.on_track
    ∧ (hawk_get_status s).testBit 8 = s.busy
    ∧ (hawk_get_status s).testBit 10 = s.data_error
    ∧ (hawk_get_status s).testBit 11 = s.data_error
    ∧ (hawk_get_status s).testBit 12 = s.data_error
    ∧ (hawk_get_status s).testBit 13 = s.data_error
    ∧ (hawk_get_status s).testBit 15 = s.data_error
    ∧ (hawk_get_status s).testBit 14 = s.seek_error
    ∧ (∀ i, i ≠ 4 → i ≠ 5 → i ≠ 8 → i ≠ 10 → i ≠ 11 → i ≠ 12 → i ≠ 13 →
        i ≠ 14 → i ≠ 15 → (hawk_get_status s).testBit i = false)
    ∧ hawk_get_status s < 65536
    ∧ hawk_read 0xF144 s = hawk_get_status s / 256
    ∧ hawk_read 0xF145 s = hawk_get_status s % 256
    ∧ hawk_get_status s
        = 256 * hawk_read 0xF144 s + hawk_read 0xF145 s := by
  obtain ⟨u, sech, secl, busy, ot, de, se, rdy, fdv, pos, dma⟩ := s
  cases busy <;> cases ot <;> cases de <;> cases se <;> cases rdy <;>
    (refine ⟨?_, ?_, ?_, ?_, ?_, ?_, ?_, ?_, ?_, ?_, ?_, ?_, ?_, ?_⟩ <;>
      first
      | (simp [hawk_get_status, hawk_read, bitVal] <;> decide)
      | (intro i h4 h5 h8 h10 h11 h12 h13 h14 h15
         rcases Nat.lt_or_ge i 16 with hi | hi
         · interval_cases i <;>
             first
             | (simp [hawk_get_status, bitVal] <;> decide)
             | simp_all
         · refine Nat.testBit_eq_false_of_lt
             (lt_of_lt_of_le ?_ (Nat.pow_le_pow_right (by norm_num) hi))
           simp [hawk_get_status, bitVal] <;> decide))

/-- Witness for C2: the unused status bit 0 is zero on a concrete state with
every flag set. -/
theorem hawk_status_word_layout_wit :
    (hawk_get_status
      ⟨0, 0, 0, true, true, true, true, true, fun _ => true, 0, 0⟩).testBit 0
      = false :=
  (hawk_status_word_layout
      ⟨0, 0, 0, true, true, true, true, true, fun _ => true, 0, 0⟩
    ).2.2.2.2.2.2.2.2.2.1 0 (by decide) (by decide) (by decide) (by decide)
    (by decide) (by decide) (by decide) (by decide) (by decide)

/-- Claim C3: `hawk_dma_done` always clears busy, and sets data_error exactly
when on_track was false at the time of the call. -/
theorem hawk_dma_done_flags (s : HawkState) :
    (hawk_dma_done s).busy = false
    ∧ ((hawk_dma_done s).data_error = true ↔ s.on_track = false) := by
  refine ⟨rfl, ?_⟩
  show (!s.on_track) = true ↔ s.on_track = false
  cases s.on_track <;> simp

/-- Claim C4: `hawk_cmd` factors as the command switch applied after the
unconditional error clearing, and the intermediate state at dispatch has both
error flags clear and every other field unchanged -- for every command byte,
mapped or not. -/
theorem hawk_cmd_clears_errors (cmd : Nat) (lseek_ok : Bool) (s : HawkState) :
    hawk_cmd cmd lseek_ok s = hawk_cmd_exec cmd lseek_ok (hawk_cmd_clear s)
    ∧ (hawk_cmd_clear s).data_error = false
    ∧ (hawk_cmd_clear s).seek_error = false
    ∧ (hawk_cmd_clear s).busy = s.busy
    ∧ (hawk_cmd_clear s).on_track = s.on_track
    ∧ (hawk_cmd_clear s).unit = s.unit
    ∧ (hawk_cmd_clear s).sech = s.sech
    ∧ (hawk_cmd_clear s).secl = s.secl
    ∧ (hawk_cmd_clear s).ready = s.ready
    ∧ (hawk_cmd_clear s).fd_valid = s.fd_valid
    ∧ (hawk_cmd_clear s).pos = s.pos
    ∧ (hawk_cmd_clear s).dma = s.dma :=
  ⟨rfl, rfl, rfl, rfl, rfl, rfl, rfl, rfl, rfl, rfl, rfl, rfl⟩

lemma hawk_position_busy_comm (ok : Bool) (t : HawkState) (b : Bool) :
    hawk_position ok { t with busy := b } = { hawk_position ok t with busy := b } := by
  simp only [hawk_position, hawk_get_fd_ok]
  split_ifs <;> rfl

lemma hawk_position_busy_eq (ok : Bool) (t : HawkState) :
    (hawk_position ok t).busy = t.busy := by
  simp only [hawk_position]
  split_ifs <;> rfl

/-- A state in which a transfer command has left the controller busy. -/
def hawkBusyState : HawkState :=
  ⟨0, 0, 0, true, false, false, false, true, fun _ => true, 0, 0⟩

/-- A state with no command in progress. -/
def hawkIdleState : HawkState :=
  ⟨0, 0, 0, false, false, false, false, true, fun _ => true, 0, 0⟩

/-- Counterexample to claim C5 as stated: on a state where busy is set,
command 3 (Restore/RTZ) leaves busy set while command 2 (Seek) clears it, so
the two commands do not produce the same resulting state. -/
theorem hawk_rtz_seek_counterexample :
    (hawk_cmd 3 true hawkBusyState).busy = true
    ∧ (hawk_cmd 2 true hawkBusyState).busy = false
    ∧ hawk_cmd 3 true hawkBusyState ≠ hawk_cmd 2 true hawkBusyState := by
  refine ⟨rfl, rfl, fun h => ?_⟩
  have hb := congrArg HawkState.busy h
  rw [show (hawk_cmd 3 true hawkBusyState).busy = true from rfl,
    show (hawk_cmd 2 true hawkBusyState).busy = false from rfl] at hb
  exact Bool.noConfusion hb

/-- Claim C5 (amended): command 3 (Restore/RTZ) produces the same state as
command 2 (Seek) except that it leaves the busy flag unchanged where Seek
clears it; both run the geometry translation and backing-store positioning
with identical effects on on_track and seek_error.  In particular the two
commands coincide on every state whose busy flag is already clear. -/
theorem hawk_rtz_matches_seek (ok : Bool) (s : HawkState) :
    hawk_cmd 3 ok s = { hawk_cmd 2 ok s with busy := s.busy }
    ∧ (s.busy = false → hawk_cmd 3 ok s = hawk_cmd 2 ok s) := by
  have key : hawk_cmd 3 ok s = { hawk_cmd 2 ok s with busy := s.busy } :=
    hawk_position_busy_comm ok { hawk_cmd_clear s with busy := false } s.busy
  refine ⟨key, fun hb => ?_⟩
  have hbz : (hawk_cmd 2 ok s).busy = false :=
    hawk_position_busy_eq ok { hawk_cmd_clear s with busy := false }
  rw [key, hb, ← hbz]

/-! ## MUX serial controller (mux.c, mux.h) -/

/-- `NUM_MUX_UNITS` from mux.h. -/
def NUM_MUX_UNITS : Nat := 4

/-- Status register bit `MUX_RX_READY` (mux.h). -/
def MUX_RX_READY : Nat := 1

/-- Status register bit `MUX_TX_READY` (mux.h). -/
def MUX_TX_READY : Nat := 2

/-- Status register bit `MUX_CTS` (mux.h). -/
def MUX_CTS : Nat := 0x20

/-- Interrupt reason `MUX_IRQ_RX` (mux.h). -/
def MUX_IRQ_RX : Nat := 0

/-- Interrupt reason `MUX_IRQ_TX` (mux.h). -/
def MUX_IRQ_TX : Nat := 1

/-- `MUX_UNIT_MASK` (mux.h). -/
def MUX_UNIT_MASK : Nat := 6

/-- One entry of the `struct MuxUnit mux[4]` array: the fields of the C
struct except the two stream handles, whose observable behavior is carried
by the read-result oracle of `next_char`. -/
structure MuxUnitState where
  mode : Nat
  status : Nat
  lastc : Nat
  baud : Nat
  tx_done : Bool
  rx_ready_time : Int
  tx_done_time : Int
deriving DecidableEq

/-- The static state of mux.c: the unit array and the four static scalars,
plus the process-wide `emulator_done` flag that `next_char` can set. -/
structure MuxState where
  units : Fin 4 → MuxUnitState
  irq_level : Nat
  irq_enabled : Bool
  irq_cause : Int
  poll_count : Nat
  done : Bool

instance : DecidableEq MuxState := fun a b =>
  decidable_of_iff
    (a.units = b.units ∧ a.irq_level = b.irq_level
      ∧ a.irq_enabled = b.irq_enabled ∧ a.irq_cause = b.irq_cause
      ∧ a.poll_count = b.poll_count ∧ a.done = b.done)
    (by cases a; cases b; simp)

/-- `mux[n]` for an in-range C loop index. -/
def unitAt (s : MuxState) (n : Nat) : MuxUnitState :=
  s.units ⟨n % 4, Nat.mod_lt n (by decide)⟩

/-- Pointwise update of one unit of the array. -/
def updUnit (u : Fin 4) (f : MuxUnitState → MuxUnitState) (s : MuxState) :
    MuxState :=
  { s with units := fun v => if v = u then f (s.units v) else s.units v }

/-- `mux_reset` from mux.c: every port back to power-on defaults and the
interrupt scalars cleared (port modes and stream handles are untouched). -/
def mux_reset (s : MuxState) : MuxState :=
  { s with
    units := fun v =>
      { s.units v with
        status := MUX_TX_READY
        lastc := 0xFF
        baud := 9600
        tx_done := false
        rx_ready_time := 0
        tx_done_time := 0 }
    irq_level := 0
    irq_enabled := false
    irq_cause := -1
    poll_count := 0 }

/-- `mux[unit].status & MUX_RX_READY` as a truth value. -/
def rxPending (m : MuxUnitState) : Bool := m.status &&& MUX_RX_READY != 0

/-- `mux_assert_irq` from mux.c: no effect and result 0 when interrupts are
disabled, otherwise latch `(unit << 1) | reason` into `irq_cause` and assert
the external CPU interrupt line (which is outside this state). -/
def mux_assert_irq (s : MuxState) (unit reason : Nat) : MuxState × Bool :=
  if s.irq_enabled = false then (s, false)
  else ({ s with irq_cause := (((unit <<< 1) ||| reason : Nat) : Int) }, true)

/-- The priority scan loop at the end of `mux_poll` (mux.c lines 426-436):
for each unit in order try RX then TX; a successful assert returns at once;
if the loop falls through, `irq_cause` is set to the idle sentinel -1.
A failed `mux_assert_irq` leaves the state unchanged, which is why the
fall-through branches continue from `s` itself, exactly as the C loop
re-reads the unmodified globals. -/
def mux_scan (s : MuxState) : List Nat → MuxState
  | [] => { s with irq_cause := -1 }
  | u :: rest =>
    let p := if rxPending (unitAt s u) then mux_assert_irq s u MUX_IRQ_RX
             else (s, false)
    if p.2 then p.1
    else
      let q := if (unitAt s u).tx_done then mux_assert_irq s u MUX_IRQ_TX
               else (s, false)
      if q.2 then q.1 else mux_scan s rest

/-- The arbitration phase of `mux_poll`: deassert the CPU line (external)
and run the priority scan over units 0..3. -/
def mux_poll_arbitrate (s : MuxState) : MuxState := mux_scan s [0, 1, 2, 3]

/-- `mux_process_events` from mux.c: fire the RX-ready and TX-done
deadlines that are due at time `now`. -/
def mux_process_events (now : Int) (u : Fin 4) (s : MuxState) : MuxState :=
  let m := s.units u
  let s1 :=
    if m.rx_ready_time != 0 && decide (m.rx_ready_time ≤ now) then
      { updUnit u
          (fun w => { w with rx_ready_time := 0
                             status := w.status ||| MUX_RX_READY }) s with
        poll_count := 0 }
    else s
  let m1 := s1.units u
  if m1.tx_done_time != 0 && decide (m1.tx_done_time ≤ now) then
    updUnit u
      (fun w => { w with tx_done_time := 0
                         status := w.status ||| MUX_TX_READY
                         tx_done := if s1.irq_enabled then true else w.tx_done })
      s1
  else s1

/-- The two phases of `mux_poll` that precede arbitration: fire every due
deadline, then (on every 16th tick) poll the external input sources.
`mux_poll_fds` lives outside mux.c (it only reads the input streams and
reports newly available bytes), so it is passed in as `fdPoll`. -/
def mux_poll_phases (now : Int) (fdPoll : MuxState → MuxState) (s : MuxState) :
    MuxState :=
  let s1 := List.foldl (fun acc u => mux_process_events now u acc) s
    [(0 : Fin 4), 1, 2, 3]
  let pc := s1.poll_count
  let s2 := { s1 with poll_count := (pc + 1) % 4294967296 }
  if pc &&& 0xF = 0 then fdPoll s2 else s2

/-- `mux_poll` from mux.c: deadline processing, throttled fd polling,
CPU-line deassert (external), then interrupt arbitration. -/
def mux_poll (now : Int) (fdPoll : MuxState → MuxState) (s : MuxState) :
    MuxState :=
  mux_poll_arbitrate (mux_poll_phases now fdPoll s)

/-- Interrupt source number `n` (0 = RX0, 1 = TX0, 2 = RX1, ...) is pending. -/
def srcPending (s : MuxState) (n : Nat) : Bool :=
  if n % 2 = 0 then rxPending (unitAt s (n / 2)) else (unitAt s (n / 2)).tx_done

/-- The lowest-numbered pending interrupt source in the fixed enumeration
RX0, TX0, RX1, TX1, RX2, TX2, RX3, TX3, or the idle sentinel -1 when none is
pending.  This is the specification-side description of the arbitration. -/
def lowestPendingCause (s : MuxState) : Int :=
  if srcPending s 0 then 0
  else if srcPending s 1 then 1
  else if srcPending s 2 then 2
  else if srcPending s 3 then 3
  else if srcPending s 4 then 4
  else if srcPending s 5 then 5
  else if srcPending s 6 then 6
  else if srcPending s 7 then 7
  else -1

/-- Result of the external one-byte `read` call in `next_char`:
a byte, end of stream, EAGAIN/EWOULDBLOCK, or any other failure. -/
inductive RdRes where
  | got (c : Nat)
  | eof
  | again
  | fatal

/-- `next_char` from mux.c.  Returns the byte handed to the caller and the
new state; `none` models the `exit(1)` on an unexpected read failure of a
console-mode port.  When `MUX_RX_READY` is clear the stream is not touched
and `lastc` is replayed. -/
def next_char (s : MuxState) (u : Fin 4) (rd : RdRes) :
    Option (Nat × MuxState) :=
  let m := s.units u
  if m.status &&& MUX_RX_READY = 0 then some (m.lastc, s)
  else if m.mode = 0 then
    match rd with
    | .eof => some (m.lastc, { s with done := true })
    | .again => some (m.lastc, s)
    | .fatal => none
    | .got c =>
      let c1 := if c % 256 = 0x7F then 0x08 else c % 256
      some (c1, updUnit u (fun w => { w with lastc := c1 }) s)
  else
    match rd with
    | .got c => some (c % 256, updUnit u (fun w => { w with lastc := c % 256 }) s)
    | _ => some (0, updUnit u (fun w => { w with lastc := 0 }) s)

/-- `mux_unit_send` from mux.c: clear `TX_READY` (a busy-port write only
emits a warning first) and arm the TX-done deadline; the byte itself goes to
the external sink.  The C code computes the symbol time in floating point;
the integer quotient is used here, and no claim depends on its value. -/
def mux_unit_send (now : Int) (u : Fin 4) (s : MuxState) : MuxState :=
  updUnit u
    (fun m => { m with
      status := m.status &&& 0xFD
      tx_done_time := now + 10 * (1000000000 / (m.baud : Int)) }) s

/-- `mux_enable_irq` from mux.c. -/
def mux_enable_irq (enable : Bool) (s : MuxState) : MuxState :=
  { s with irq_enabled := enable }

/-- The unit decoded by `mux_write` (mux.c lines 224-236): low nibble above
7 selects a card-wide register of unit `card*4`; otherwise bits 1-2 of the
address select the port. -/
def muxDecodeWriteUnit (addr : Nat) : Nat :=
  let card := (addr >>> 4) &&& 0xF
  let mode0 := addr &&& 0xf
  if mode0 > 7 then card * 4 else card * 4 + ((addr >>> 1) &&& 0x3)

/-- The register kind decoded by `mux_write` and `mux_read`: the low nibble,
masked to its lowest bit for the per-port (data/status) range. -/
def muxDecodeMode (addr : Nat) : Nat :=
  let mode0 := addr &&& 0xf
  if mode0 > 7 then mode0 else mode0 &&& 1

/-- The unit decoded by `mux_read` (mux.c lines 325-336); it masks the low
nibble before taking bits 1-2, which agrees with the write decode on every
address. -/
def muxDecodeReadUnit (addr : Nat) : Nat :=
  let card := (addr >>> 4) &&& 0xF
  let mode0 := addr &&& 0xf
  if mode0 > 7 then card * 4 else card * 4 + ((mode0 >>> 1) &&& 0x3)

/-- `mux_write` from mux.c; `val` is the uint8 register value (< 256 at the
bus).  `none` models an out-of-bounds access to the `mux` array (undefined
behavior in the C code): the register 0xC handler indexes `mux[val - 1]`
with no bounds check (C promotes the uint8 to int, so val = 0 indexes
`mux[-1]`), and a decoded unit that slips past the `unit > NUM_MUX_UNITS`
guard indexes `mux[4]`. -/
def mux_write (addr val : Nat) (now : Int) (s : MuxState) : Option MuxState :=
  let unit := muxDecodeWriteUnit addr
  let mode := muxDecodeMode addr
  if unit > NUM_MUX_UNITS then some s
  else if mode = 0 then some s
  else if mode = 1 then
    if h : unit < 4 then some (mux_unit_send now ⟨unit, h⟩ s) else none
  else if mode = 8 then some s
  else if mode = 0xA then some { s with irq_level := val }
  else if mode = 0xB then some s
  else if mode = 0xC then
    if h : 1 ≤ val ∧ val ≤ 4 then
      some (updUnit ⟨val - 1, by omega⟩ (fun m => { m with tx_done := true }) s)
    else none
  else if mode = 0xD then some (mux_enable_irq false s)
  else if mode = 0xE then some (mux_enable_irq true s)
  else if mode = 0xF then some (mux_reset s)
  else some s

/-- `irq_cause & MUX_IRQ_TX` as a truth value.  `irq_cause` is a C `int`;
the low bit of its two's-complement representation is `emod 2` (so the idle
sentinel -1 also tests as TX, exactly as in the C code). -/
def causeIsTx (c : Int) : Bool := c.emod 2 == 1

/-- `(irq_cause & MUX_UNIT_MASK) >> 1`: the mask keeps only bits 1-2, which
in two's complement depend only on `emod 8`. -/
def causeUnitVal (c : Int) : Nat := ((c.emod 8).toNat &&& MUX_UNIT_MASK) >>> 1

lemma causeUnitVal_lt (c : Int) : causeUnitVal c < 4 := by
  unfold causeUnitVal MUX_UNIT_MASK
  have h := Nat.and_le_right (n := (c.emod 8).toNat) (m := 6)
  rw [Nat.shiftRight_eq_div_pow, pow_one]
  omega

/-- The unit whose TX condition a cause-register read acknowledges. -/
def causeUnit (c : Int) : Fin 4 := ⟨causeUnitVal c, causeUnitVal_lt c⟩

/-- The data-register (mode 1) branch of `mux_read`: fetch a byte through
`next_char`, then unconditionally clear the unit's `MUX_RX_READY` bit
(mux.c lines 353-357). -/
def mux_read_data (u : Fin 4) (rd : RdRes) (s : MuxState) :
    Option (Nat × MuxState) :=
  (next_char s u rd).map
    (fun p => (p.1,
      updUnit u (fun m => { m with status := m.status &&& 0xFE }) p.2))

/-- `mux_read` from mux.c.  The dedicated cause register 0xf20f is checked
before the generic decode; reading it acknowledges a latched TX cause by
clearing that unit's `tx_done`.  The returned byte is the uint8 truncation
of the C `int` return value.  `none` models an out-of-bounds `mux` access
(decoded unit 4 slipping past the guard) or the `exit(1)` inside
`next_char`. -/
def mux_read (addr : Nat) (rd : RdRes) (s : MuxState) :
    Option (Nat × MuxState) :=
  if addr = 0xf20f then
    let s1 :=
      if causeIsTx s.irq_cause then
        updUnit (causeUnit s.irq_cause) (fun m => { m with tx_done := false }) s
      else s
    some ((s.irq_cause.emod 256).toNat, s1)
  else
    let unit := muxDecodeReadUnit addr
    let mode := muxDecodeMode addr
    if unit > NUM_MUX_UNITS then some (0, s)
    else if mode = 0 then
      if h : unit < 4 then some ((s.units ⟨unit, h⟩).status ||| MUX_CTS, s)
      else none
    else if mode = 1 then
      if h : unit < 4 then mux_read_data ⟨unit, h⟩ rd s else none
    else some (0, s)

lemma mux_scan_disabled (t : MuxState) (hen : t.irq_enabled = false) :
    ∀ l, mux_scan t l = { t with irq_cause := -1 } := by
  intro l
  induction l with
  | nil => rfl
  | cons u rest ih => simp [mux_scan, mux_assert_irq, hen, ih]

lemma mux_scan_cons (t : MuxState) (hen : t.irq_enabled = true) (u : Nat)
    (rest : List Nat) :
    mux_scan t (u :: rest)
      = if rxPending (unitAt t u) then
          { t with irq_cause := (((u <<< 1) ||| MUX_IRQ_RX : Nat) : Int) }
        else if (unitAt t u).tx_done then
          { t with irq_cause := (((u <<< 1) ||| MUX_IRQ_TX : Nat) : Int) }
        else mux_scan t rest := by
  cases hrx : rxPending (unitAt t u) <;> cases htx : (unitAt t u).tx_done <;>
    simp [mux_scan, mux_assert_irq, hen, hrx, htx]

lemma mux_scan_units (t : MuxState) (l : List Nat) (u : Fin 4) :
    (mux_scan t l).units u = t.units u := by
  induction l with
  | nil => rfl
  | cons v rest ih =>
    cases hrx : rxPending (unitAt t v) <;> cases htx : (unitAt t v).tx_done <;>
      cases hen : t.irq_enabled <;>
      simp [mux_scan, mux_assert_irq, hrx, htx, hen, ih, updUnit]

lemma mux_arbitrate_cause_enabled (t : MuxState) (hen : t.irq_enabled = true) :
    (mux_poll_arbitrate t).irq_cause = lowestPendingCause t := by
  simp only [mux_poll_arbitrate, mux_scan_cons t hen, lowestPendingCause,
    srcPending]
  norm_num
  split_ifs <;> simp_all [mux_scan, MUX_IRQ_RX, MUX_IRQ_TX]

/-- Claim C6 (amended): a polling tick is deadline processing and fd polling
(which never touch `irq_cause`) followed by arbitration, and after the
arbitration phase `irq_cause` holds the lowest-numbered pending source in the
enumeration RX0, TX0, RX1, TX1, ... whenever interrupts are enabled, and the
idle sentinel -1 when nothing is pending -- or whenever interrupts are
disabled, in which case pending sources are not latched.  In particular with
TX0 and RX2 pending simultaneously (interrupts enabled, RX0 idle) the latched
cause is TX0's value 1, not RX2's value 4. -/
theorem mux_arbitration_claim (now : Int) (fdPoll : MuxState → MuxState)
    (s : MuxState) :
    mux_poll now fdPoll s = mux_poll_arbitrate (mux_poll_phases now fdPoll s)
    ∧ ∀ t : MuxState,
        (t.irq_enabled = true →
          (mux_poll_arbitrate t).irq_cause = lowestPendingCause t)
        ∧ (t.irq_enabled = false → (mux_poll_arbitrate t).irq_cause = -1)
        ∧ (∀ u : Fin 4, (mux_poll_arbitrate t).units u = t.units u)
        ∧ (t.irq_enabled = true → srcPending t 1 = true →
            srcPending t 4 = true → srcPending t 0 = false →
            (mux_poll_arbitrate t).irq_cause = 1) := by
  refine ⟨rfl, fun t => ⟨mux_arbitrate_cause_enabled t, ?_, ?_, ?_⟩⟩
  · intro hen
    show (mux_scan t [0, 1, 2, 3]).irq_cause = -1
    rw [mux_scan_disabled t hen]
  · intro u
    exact mux_scan_units t [0, 1, 2, 3] u
  · intro hen h1 h4 h0
    rw [mux_arbitrate_cause_enabled t hen]
    simp [lowestPendingCause, h0, h1]

/-- A quiescent port: console mode, TX ready, nothing pending. -/
def muxUnitQuiet : MuxUnitState := ⟨0, 2, 0xFF, 9600, false, 0, 0⟩

/-- Interrupts disabled, but port 0 has a pending RX condition. -/
def muxDisabledPending : MuxState :=
  { units := fun v => if v = 0 then { muxUnitQuiet with status := 3 }
      else muxUnitQuiet
    irq_level := 0
    irq_enabled := false
    irq_cause := -1
    poll_count := 0
    done := false }

/-- Counterexample to claim C6 as stated: with interrupts disabled and RX0
pending, a polling tick leaves `irq_cause` at the idle sentinel even though
a source is pending, so after this tick `irq_cause` holds neither the
lowest-numbered pending source (0) nor a correct idle indication. -/
theorem mux_arbitration_counterexample :
    srcPending muxDisabledPending 0 = true
    ∧ lowestPendingCause muxDisabledPending = 0
    ∧ (mux_poll 0 id muxDisabledPending).irq_cause = -1 := by
  refine ⟨by decide, by decide, by decide⟩

/-- Interrupts enabled; port 0 has TX pending, port 2 has RX pending. -/
def muxRx2Tx0 : MuxState :=
  { units := fun v =>
      if v = 0 then { muxUnitQuiet with tx_done := true }
      else if v = 2 then { muxUnitQuiet with status := 3 }
      else muxUnitQuiet
    irq_level := 0
    irq_enabled := true
    irq_cause := -1
    poll_count := 0
    done := false }

/-- Witness for C6: on the concrete TX0+RX2 state the tick latches cause 1
(TX0), not 4 (RX2). -/
theorem mux_arbitration_claim_wit :
    (mux_poll 0 id muxRx2Tx0).irq_cause = 1 := by
  obtain ⟨h1, h2⟩ := mux_arbitration_claim 0 id muxRx2Tx0
  have h3 := (h2 (mux_poll_phases 0 id muxRx2Tx0)).2.2.2 (by decide) (by decide)
    (by decide) (by decide)
  rw [h1, h3]

lemma and_fe_rx (x : Nat) : (x &&& 0xFE) &&& MUX_RX_READY = 0 := by
  unfold MUX_RX_READY
  rw [Nat.and_assoc]
  simp

/-- Claim C7: reading the dedicated interrupt-cause register 0xf20f clears
the pending TX condition (`tx_done`) of the unit encoded in a latched TX
cause, but leaves every unit's status byte -- in particular a pending
RX_READY -- untouched, and touches no other unit's `tx_done`; with a non-TX
cause the state is unchanged entirely.  An RX condition is cleared only by a
data-register read: any completed data read leaves that unit's RX_READY bit
clear. -/
theorem mux_cause_read_rx_preserved (s : MuxState) (rd : RdRes) :
    (∃ s1, mux_read 0xf20f rd s = some ((s.irq_cause.emod 256).toNat, s1)
      ∧ (∀ u : Fin 4, (s1.units u).status = (s.units u).status)
      ∧ (causeIsTx s.irq_cause = true →
          (s1.units (causeUnit s.irq_cause)).tx_done = false)
      ∧ (causeIsTx s.irq_cause = false → s1 = s)
      ∧ (∀ u : Fin 4, u ≠ causeUnit s.irq_cause →
          (s1.units u).tx_done = (s.units u).tx_done))
    ∧ (∀ u : Fin 4, ∀ rd2 d t,
        mux_read_data u rd2 s = some (d, t) →
        (t.units u).status &&& MUX_RX_READY = 0) := by
  constructor
  · cases hc : causeIsTx s.irq_cause
    · refine ⟨s, ?_, fun u => rfl, ?_, fun _ => rfl, fun u _ => rfl⟩
      · simp [mux_read, hc]
      · intro h
        exact Bool.noConfusion h
    · refine ⟨updUnit (causeUnit s.irq_cause)
        (fun m => { m with tx_done := false }) s, ?_, ?_, ?_, ?_, ?_⟩
      · simp [mux_read, hc]
      · intro u
        simp only [updUnit]
        split <;> rfl
      · intro _
        simp [updUnit]
      · intro h
        exact Bool.noConfusion h
      · intro u hu
        simp [updUnit, hu]
  · intro u rd2 d t h
    rcases Option.map_eq_some'.mp h with ⟨p, hp, heq⟩
    have ht : t = updUnit u (fun m => { m with status := m.status &&& 0xFE }) p.2 :=
      (congrArg Prod.snd heq).symm
    subst ht
    simp [updUnit, and_fe_rx]

/-- Interrupts enabled; port 0 has both a latched TX cause (irq_cause = 1)
and a pending RX condition (RX_READY set). -/
def muxTx0Rx0 : MuxState :=
  { units := fun v => if v = 0 then ⟨0, 3, 0xFF, 9600, true, 0, 0⟩
      else muxUnitQuiet
    irq_level := 0
    irq_enabled := true
    irq_cause := 1
    poll_count := 0
    done := false }

/-- Witness for C7: on the concrete state with TX0 latched and RX0 pending,
the cause-register read clears tx_done of unit 0 but leaves its RX_READY
status untouched. -/
theorem mux_cause_read_rx_preserved_wit :
    ∃ s1, mux_read 0xf20f RdRes.again muxTx0Rx0
        = some ((muxTx0Rx0.irq_cause.emod 256).toNat, s1)
      ∧ (s1.units 0).tx_done = false
      ∧ (s1.units 0).status = (muxTx0Rx0.units 0).status := by
  obtain ⟨⟨s1, h1, h2, h3, _, _⟩, _⟩ :=
    mux_cause_read_rx_preserved muxTx0Rx0 RdRes.again
  have hc : causeIsTx muxTx0Rx0.irq_cause = true := by decide
  have hu : causeUnit muxTx0Rx0.irq_cause = (0 : Fin 4) := by decide
  exact ⟨s1, h1, by rw [← hu]; exact h3 hc, h2 0⟩

/-- A fully quiescent card: all ports idle, interrupts disabled. -/
def muxQuietState : MuxState :=
  { units := fun _ => muxUnitQuiet
    irq_level := 0
    irq_enabled := false
    irq_cause := -1
    poll_count := 0
    done := false }

/-- Claim C9: the unit bounds checks in `mux_write` and `mux_read` use
"greater than" instead of "greater-or-equal" against `NUM_MUX_UNITS`, so the
decoded unit 4 (one past the last valid index 3) passes the guard on
addresses 0xF211 (write) and 0xF210 (read) and the access proceeds into an
out-of-range `mux[4]` access (modelled as `none`), while a genuinely larger
unit (8, at address 0xF221) is rejected without mutation. -/
theorem mux_unit_bounds_defect :
    NUM_MUX_UNITS = 4
    ∧ muxDecodeWriteUnit 0xF211 = NUM_MUX_UNITS
    ∧ ¬(muxDecodeWriteUnit 0xF211 > NUM_MUX_UNITS)
    ∧ ¬(muxDecodeWriteUnit 0xF211 < NUM_MUX_UNITS)
    ∧ mux_write 0xF211 0x41 0 muxQuietState = none
    ∧ muxDecodeReadUnit 0xF210 = NUM_MUX_UNITS
    ∧ ¬(muxDecodeReadUnit 0xF210 > NUM_MUX_UNITS)
    ∧ ¬(muxDecodeReadUnit 0xF210 < NUM_MUX_UNITS)
    ∧ mux_read 0xF210 RdRes.again muxQuietState = none
    ∧ mux_write 0xF221 0x41 0 muxQuietState = some muxQuietState := by
  decide

/-- Claim C10: a write of `val` to the card-wide forced-TX-done register
(low nibble 0xC) sets `tx_done` on port `val - 1` with no bounds check:
values 1..4 index a valid port (and change nothing but that port's
`tx_done`), while val = 0 (index -1 after integer promotion) and val > 4
run into an access outside the 4-element `mux` array (modelled `none`). -/
theorem mux_force_txdone_unguarded (val : Nat) (now : Int) (s : MuxState) :
    (∀ h1 : 1 ≤ val, ∀ h4 : val ≤ 4,
      ∃ s', mux_write 0xF20C val now s = some s'
        ∧ (s'.units ⟨val - 1, by omega⟩).tx_done = true
        ∧ (∀ u : Fin 4, u.val ≠ val - 1 → s'.units u = s.units u)
        ∧ (∀ u : Fin 4, (s'.units u).status = (s.units u).status))
    ∧ (val = 0 → mux_write 0xF20C val now s = none)
    ∧ (4 < val → mux_write 0xF20C val now s = none) := by
  have hdw : muxDecodeWriteUnit 0xF20C = 0 := by decide
  have hdm : muxDecodeMode 0xF20C = 12 := by decide
  refine ⟨?_, ?_, ?_⟩
  · intro h1 h4
    refine ⟨updUnit ⟨val - 1, by omega⟩ (fun m => { m with tx_done := true }) s,
      ?_, ?_, ?_, ?_⟩
    · simp [mux_write, hdw, hdm, NUM_MUX_UNITS, h1, h4]
    · simp [updUnit]
    · intro u hu
      have : ¬(u = (⟨val - 1, by omega⟩ : Fin 4)) := by
        intro heq
        exact hu (congrArg Fin.val heq)
      simp [updUnit, this]
    · intro u
      simp only [updUnit]
      split <;> rfl
  · intro h0
    subst h0
    simp [mux_write, hdw, hdm, NUM_MUX_UNITS]
  · intro h5
    have hng : ¬(1 ≤ val ∧ val ≤ 4) := by omega
    simp [mux_write, hdw, hdm, NUM_MUX_UNITS, hng]

/-- Witness for C10: writing 3 to 0xF20C on the quiescent card sets
tx_done on port 2. -/
theorem mux_force_txdone_unguarded_wit :
    ∃ s', mux_write 0xF20C 3 0 muxQuietState = some s'
      ∧ (s'.units ⟨2, by omega⟩).tx_done = true := by
  obtain ⟨h1, _, _⟩ := mux_force_txdone_unguarded 3 0 muxQuietState
  obtain ⟨s', hw, ht, _, _⟩ := h1 (by decide) (by decide)
  exact ⟨s', hw, ht⟩

/-- Witness for C5 (amended): on a concrete non-busy state, Restore/RTZ and
Seek produce identical states. -/
theorem hawk_rtz_matches_seek_wit :
    hawkIdleState.busy = false
    ∧ hawk_cmd 3 true hawkIdleState = hawk_cmd 2 true hawkIdleState :=
  ⟨rfl, (hawk_rtz_matches_seek true hawkIdleState).2 rfl⟩

/-- Witness for C3: the theorem applied to a concrete off-track state. -/
theorem hawk_dma_done_flags_wit :
    (hawk_dma_done hawkIdleState).busy = false
    ∧ ((hawk_dma_done hawkIdleState).data_error = true
        ↔ hawkIdleState.on_track = false) :=
  hawk_dma_done_flags hawkIdleState
